import Mathlib

/-
Shallow embedding of the WebM parser and muxer of src/src/wrapper-worker.js
(classes MinimalWebMParser, MinimalWebMMuxer and WebMFile of the libwebm-js
worker fallback).  JS Numbers holding byte and integer data are modeled as
Nat/Int; the 32-bit semantics of the JS bitwise operators (the ToInt32
coercion of `<<`, `>>`, `&`, `|`) is modeled explicitly where the operands
can reach it, and is replaced by plain Nat arithmetic only under guards that
keep every operand below 2^31, where the two coincide.
-/

namespace WebM

/-- The JS ToInt32 abstract operation on an integral value: two's-complement
reinterpretation of the low 32 bits. -/
def toInt32 (x : Int) : Int :=
  let m := x.emod (2 ^ 32)
  if m < 2 ^ 31 then m else m - 2 ^ 32

/-- JS `(v << 8) | b` for 0 ≤ b < 256 (every call site reads b from a byte
buffer): the 32-bit left shift leaves the low eight bits of the wrapped
pattern zero, so the bitwise or is exact addition on the wrapped value. -/
def jsShl8Or (v : Int) (b : Nat) : Int := toInt32 (v * 256) + b

/-- JS `(v >> k) & 0xFF` on an integral value: ToInt32, arithmetic shift by
k mod 32 (JS masks shift counts), then the low-byte mask. -/
def jsShrAndFF (v : Int) (k : Nat) : Nat :=
  (((toInt32 v).fdiv (2 ^ (k % 32))).emod 256).toNat

/-- JS indexing buffer[i]; none models undefined. -/
def jsIndex (buf : List Nat) (i : Int) : Option Nat :=
  if 0 ≤ i ∧ i < (buf.length : Int) then some (buf.getD i.toNat 0) else none

/-- Uint8Array.slice(s, e): a negative bound counts from the end, and the
range is clamped to the buffer. -/
def jsSlice (buf : List Nat) (s e : Int) : List Nat :=
  let n : Int := buf.length
  let s1 := if s < 0 then max (n + s) 0 else min s n
  let e1 := if e < 0 then max (n + e) 0 else min e n
  (buf.take e1.toNat).drop s1.toNat

/-- The length-scan loop shared by readVint, readElementId and
readVintFromBuffer, unrolled: the mask walks 0x80, 0x40, ..., 0x01 and the
loop breaks at the first set bit of the first byte; 0 when no bit is set. -/
def vintLength (b : Nat) : Nat :=
  if b &&& 0x80 ≠ 0 then 1
  else if b &&& 0x40 ≠ 0 then 2
  else if b &&& 0x20 ≠ 0 then 3
  else if b &&& 0x10 ≠ 0 then 4
  else if b &&& 0x08 ≠ 0 then 5
  else if b &&& 0x04 ≠ 0 then 6
  else if b &&& 0x02 ≠ 0 then 7
  else if b &&& 0x01 ≠ 0 then 8
  else 0

/-- The value of the loop's mask variable when it exits with the given
length: 0x80 shifted right length-1 times. -/
def vintMask (len : Nat) : Nat := 0x80 >>> (len - 1)

structure VintResult where
  value : Int
  length : Nat
deriving Repr, DecidableEq

/-- MinimalWebMParser.readVint: length from the first byte's leading set bit,
then big-endian accumulation `value = (value << 8) | buffer[pos+i]` starting
from the first byte with the length marker cleared (`firstByte & (mask-1)`).
The accumulation wraps at 32 bits exactly like the JS operators, so values
with bit 31 set come back negative.  Returns none («null») at end of buffer,
on a zero first byte, or when fewer than length bytes remain. -/
def readVint (buf : List Nat) (pos : Int) : Option VintResult :=
  if pos ≥ (buf.length : Int) then none
  else
    match jsIndex buf pos with
    | none => none
    | some firstByte =>
      let length := vintLength firstByte
      if length = 0 ∨ pos + length > (buf.length : Int) then none
      else
        let init : Int := (firstByte &&& (vintMask length - 1) : Nat)
        let value := (List.range (length - 1)).foldl
          (fun v i => jsShl8Or v ((jsIndex buf (pos + 1 + i)).getD 0)) init
        some ⟨value, length⟩

/-- MinimalWebMParser.readVintFromBuffer: the source duplicates readVint's
code verbatim over an explicit (buffer, offset) pair. -/
def readVintFromBuffer (buf : List Nat) (offset : Int) : Option VintResult :=
  readVint buf offset

/-- MinimalWebMParser.readElementId: same length scan, but the value
accumulates all length bytes starting from zero, keeping the marker bit as
part of the id; the 32-bit wrap makes long ids come back negative. -/
def readElementId (buf : List Nat) (pos : Int) : Option VintResult :=
  if pos ≥ (buf.length : Int) then none
  else
    match jsIndex buf pos with
    | none => none
    | some firstByte =>
      let length := vintLength firstByte
      if length = 0 ∨ pos + length > (buf.length : Int) then none
      else
        let value := (List.range length).foldl
          (fun v i => jsShl8Or v ((jsIndex buf (pos + i)).getD 0)) 0
        some ⟨value, length⟩

structure Element where
  id : Int
  size : Int
  data : List Nat
deriving Repr, DecidableEq

/-- MinimalWebMParser.readElement: element id (marker kept), size (marker
cleared), then the payload slice `buffer.slice(dataStart, min(dataStart +
size, length))`; returns the element and the new cursor `dataEnd`. -/
def readElement (buf : List Nat) (pos : Int) : Option (Element × Int) :=
  match readElementId buf pos with
  | none => none
  | some id =>
    let pos1 := pos + id.length
    match readVint buf pos1 with
    | none => none
    | some size =>
      let dataStart := pos1 + size.length
      let dataEnd := min (dataStart + size.value) (buf.length : Int)
      some (⟨id.value, size.value, jsSlice buf dataStart dataEnd⟩, dataEnd)

/-- MinimalWebMParser.readUint: big-endian accumulation `(value << 8) |
data[i]` over the whole slice, wrapping at 32 bits like the JS operators. -/
def readUint (data : List Nat) : Int :=
  data.foldl jsShl8Or 0

/-- MinimalWebMParser.readInt16: big-endian signed 16-bit integer at the
given offset via DataView.getInt16; 0 when fewer than two bytes remain. -/
def readInt16 (data : List Nat) (offset : Nat) : Int :=
  if data.length < offset + 2 then 0
  else
    let u := data.getD offset 0 * 256 + data.getD (offset + 1) 0
    if u < 2 ^ 15 then (u : Int) else (u : Int) - 2 ^ 16

/-- The exact rational value of a big-endian IEEE-754 byte string with a
1-bit sign, eb-bit exponent and mb-bit mantissa; none models the NaN and
infinity encodings. -/
def decodeIEEE (eb mb : Nat) (bytes : List Nat) : Option ℚ :=
  let u : Nat := bytes.foldl (fun a b => a * 256 + b % 256) 0
  let sign : ℚ := if u / 2 ^ (eb + mb) % 2 = 1 then -1 else 1
  let expBits := u / 2 ^ mb % 2 ^ eb
  let mant := u % 2 ^ mb
  let bias := 2 ^ (eb - 1) - 1
  if expBits = 2 ^ eb - 1 then none
  else if expBits = 0 then some (sign * mant * ((1 : ℚ) / 2 ^ (bias + mb - 1)))
  else some (sign * (2 ^ mb + mant) * (2 : ℚ) ^ ((expBits : ℤ) - bias - mb))

/-- MinimalWebMParser.readFloat: 32-bit or 64-bit big-endian IEEE-754
depending on the slice length, 0 for any other length; none models a
NaN/infinite JS number. -/
def readFloat (data : List Nat) : Option ℚ :=
  if data.length = 4 then decodeIEEE 8 23 data
  else if data.length = 8 then decodeIEEE 11 52 data
  else some 0

/-- MinimalWebMParser.readString: TextDecoder('utf-8').decode.  Strings are
modeled by their byte sequences; the codec ids and names handled in this
development are ASCII, where utf-8 decoding is the identity on code points. -/
def readStringBytes (data : List Nat) : List Nat := data

structure PFrame where
  trackNumber : Int
  timestampNs : Int
  data : List Nat
  isKeyframe : Bool
  isInvisible : Bool
deriving Repr, DecidableEq

structure PTrack where
  trackNumber : Int
  trackType : Int
  codecId : List Nat
  name : List Nat
deriving Repr, DecidableEq

structure Metadata where
  duration : Option ℚ
  tracks : List PTrack
  timecodeScale : Int
  frames : List PFrame
deriving Repr, DecidableEq

/-- The metadata record initialised by the MinimalWebMParser constructor:
duration 0, no tracks, default timecode scale 1000000, no frames. -/
def initMetadata : Metadata := ⟨some 0, [], 1000000, []⟩

/-- The while-loop shape shared by every per-container parse method:
repeatedly readElement while the cursor is inside the buffer, folding a
handler over the elements; the handler's boolean is false on `break`.
The fuel bounds the iteration count; call sites pass length+1, enough for
every loop whose cursor advances (readElement advances the cursor whenever
the declared size is nonnegative; on adversarial sizes the JS loop can fail
to advance and hang, where this model stops instead). -/
def elementLoop {σ : Type} (buf : List Nat) (handle : σ → Element → σ × Bool) :
    Nat → Int → σ → σ
  | 0, _, st => st
  | fuel + 1, pos, st =>
    if pos < (buf.length : Int) then
      match readElement buf pos with
      | none => st
      | some (e, pos1) =>
        let (st1, cont) := handle st e
        if cont then elementLoop buf handle fuel pos1 st1 else st1
    else st

/-- MinimalWebMParser.parseSimpleBlock: track byte (& 0x7F, not a real VINT
read), signed 16-bit relative timecode at offset 1, flags byte at offset 3,
and the whole remainder as a single frame — the lacing bits of the flags
byte are never inspected.  The absolute timestamp is (clusterTimecode +
relativeTimecode) * timecodeScale with no clamping at zero.  Blocks shorter
than 4 bytes are ignored. -/
def parseSimpleBlock (meta : Metadata) (blockData : List Nat)
    (clusterTimecode : Int) : Metadata :=
  if blockData.length < 4 then meta
  else
    let trackNumber : Int := (blockData.getD 0 0 &&& 0x7F : Nat)
    let relativeTimecode := readInt16 blockData 1
    let flags := blockData.getD 3 0
    let isKeyframe := flags &&& 0x80 ≠ 0
    let isInvisible := flags &&& 0x08 ≠ 0
    let frameData := blockData.drop 4
    let absoluteTimecode := (clusterTimecode + relativeTimecode) * meta.timecodeScale
    { meta with frames := meta.frames ++
        [⟨trackNumber, absoluteTimecode, frameData, isKeyframe, isInvisible⟩] }

/-- MinimalWebMParser.parseBlock: track number as a real VINT, signed 16-bit
delta, remainder as one frame always marked keyframe; same unclamped
timestamp formula.  Blocks shorter than 3 bytes or with an unreadable track
VINT are ignored. -/
def parseBlock (meta : Metadata) (blockData : List Nat)
    (clusterTimecode : Int) : Metadata :=
  if blockData.length < 3 then meta
  else
    match readVintFromBuffer blockData 0 with
    | none => meta
    | some vint =>
      let relativeTimecode := readInt16 blockData vint.length
      let frameData := blockData.drop (vint.length + 2)
      let absoluteTimecode := (clusterTimecode + relativeTimecode) * meta.timecodeScale
      { meta with frames := meta.frames ++
          [⟨vint.value, absoluteTimecode, frameData, true, false⟩] }

/-- MinimalWebMParser.parseBlockGroup: walk the group's children, decoding
each Block (0xA1); everything else is ignored. -/
def parseBlockGroup (groupData : List Nat) (meta : Metadata)
    (clusterTimecode : Int) : Metadata :=
  elementLoop groupData
    (fun m e => (if e.id = 0xA1 then parseBlock m e.data clusterTimecode else m, true))
    (groupData.length + 1) 0 meta

/-- MinimalWebMParser.parseCluster: walk the cluster's children; a Timecode
child (0xE7) updates the running cluster timecode (initially 0), SimpleBlock
(0xA3) and BlockGroup (0xA0) children append frames. -/
def parseCluster (clusterData : List Nat) (meta : Metadata) : Metadata :=
  (elementLoop clusterData
    (fun (st : Metadata × Int) e =>
      (if e.id = 0xE7 then (st.1, readUint e.data)
       else if e.id = 0xA3 then (parseSimpleBlock st.1 e.data st.2, st.2)
       else if e.id = 0xA0 then (parseBlockGroup e.data st.1 st.2, st.2)
       else st, true))
    (clusterData.length + 1) 0 (meta, 0)).1

/-- The initial codec id string 'unknown' of a TrackEntry, as bytes. -/
def unknownCodecId : List Nat := [0x75, 0x6E, 0x6B, 0x6E, 0x6F, 0x77, 0x6E]

/-- MinimalWebMParser.parseTrackEntry (the second, overriding definition in
the class body): TrackNumber 0xD7, TrackType 0x83, CodecID 0x86, Name 0x536E;
a track is returned only when its TrackNumber is positive. -/
def parseTrackEntry (trackData : List Nat) : Option PTrack :=
  let track := elementLoop trackData
    (fun (t : PTrack) e =>
      (if e.id = 0xD7 then { t with trackNumber := readUint e.data }
       else if e.id = 0x83 then { t with trackType := readUint e.data }
       else if e.id = 0x86 then { t with codecId := readStringBytes e.data }
       else if e.id = 0x536E then { t with name := readStringBytes e.data }
       else t, true))
    (trackData.length + 1) 0 ⟨0, 0, unknownCodecId, []⟩
  if track.trackNumber > 0 then some track else none

/-- MinimalWebMParser.parseTracks: collect each well-formed TrackEntry. -/
def parseTracks (tracksData : List Nat) (meta : Metadata) : Metadata :=
  elementLoop tracksData
    (fun m e =>
      (if e.id = 0xAE then
        match parseTrackEntry e.data with
        | some t => { m with tracks := m.tracks ++ [t] }
        | none => m
       else m, true))
    (tracksData.length + 1) 0 meta

/-- MinimalWebMParser.parseSegmentInfo: TimecodeScale 0x2AD7B1 via readUint,
Duration 0x4489 via readFloat. -/
def parseSegmentInfo (infoData : List Nat) (meta : Metadata) : Metadata :=
  elementLoop infoData
    (fun m e =>
      (if e.id = 0x2AD7B1 then { m with timecodeScale := readUint e.data }
       else if e.id = 0x4489 then { m with duration := readFloat e.data }
       else m, true))
    (infoData.length + 1) 0 meta

/-- MinimalWebMParser.parseSegment: walk the segment's children in order,
handling SegmentInfo, Tracks and Cluster (each under its canonical id or its
«alternative parsing» alias with the marker bit dropped). -/
def parseSegment (segmentData : List Nat) (meta : Metadata) : Metadata :=
  elementLoop segmentData
    (fun m e =>
      (if e.id = 0x1549A966 ∨ e.id = 0x0549A966 then parseSegmentInfo e.data m
       else if e.id = 0x1654AE6B ∨ e.id = 0x0654AE6B then parseTracks e.data m
       else if e.id = 0x1F43B675 ∨ e.id = 0x0F43B675 then parseCluster e.data m
       else m, true))
    (segmentData.length + 1) 0 meta

/-- MinimalWebMParser.validateEBMLHeader: the four magic bytes 1A 45 DF A3 at
offset 0, then a scan for the ASCII bytes "webm" at any offset i with
i < min(length - 4, 100).  DocType and DocTypeReadVersion are never decoded.
(The Nat subtraction saturates at 0 exactly where the JS bound is negative
and the loop body never runs.) -/
def validateEBMLHeader (buf : List Nat) : Bool :=
  (decide (jsIndex buf 0 = some 0x1A) && decide (jsIndex buf 1 = some 0x45) &&
   decide (jsIndex buf 2 = some 0xDF) && decide (jsIndex buf 3 = some 0xA3)) &&
  (List.range (min (buf.length - 4) 100)).any (fun i =>
    buf.getD i 0 == 0x77 && buf.getD (i + 1) 0 == 0x65 &&
    buf.getD (i + 2) 0 == 0x62 && buf.getD (i + 3) 0 == 0x6D)

inductive ParseError
  | invalidHeader
deriving Repr, DecidableEq

/-- MinimalWebMParser.parse: throw «Invalid EBML header» when
validateEBMLHeader fails, then walk the root elements until a Segment id
(0x18538067 or 0x08538067) is found, parse it and stop. -/
def parse (buf : List Nat) : Except ParseError Metadata :=
  if validateEBMLHeader buf then
    .ok (elementLoop buf
      (fun m e =>
        if e.id = 0x18538067 ∨ e.id = 0x08538067 then (parseSegment e.data m, false)
        else (m, true))
      (buf.length + 1) 0 initMetadata)
  else .error .invalidHeader

/-- The 64 MiB input limit of the MinimalWebMParser constructor. -/
def MAX_FILE_SIZE : Nat := 64 * 1024 * 1024

inductive JsError
  | fileSizeExceeded
  | invalidHeader
deriving Repr, DecidableEq

/-- MinimalWebMParser.constructor: throws when buffer.length exceeds 64 MiB —
before any byte of the buffer is read — and otherwise yields the initial
parser state (the buffer, cursor 0 and default metadata). -/
def mkMinimalWebMParser (buf : List Nat) :
    Except JsError (List Nat × Int × Metadata) :=
  if buf.length > MAX_FILE_SIZE then .error .fileSizeExceeded
  else .ok (buf, 0, initMetadata)

/-- validateWebMBasic composed with WebMFile.fromBuffer: construct a parser
and parse; an error from either step makes fromBuffer throw. -/
def fromBuffer (buf : List Nat) : Except JsError Metadata :=
  match mkMinimalWebMParser buf with
  | .error e => .error e
  | .ok _ =>
    match parse buf with
    | .error _ => .error .invalidHeader
    | .ok m => .ok m

/-- MinimalWebMMuxer.writeVint: the bytes pushed for an unsigned size value.
The first four branch guards keep every shifted operand below 2^28, where
the JS bitwise operators agree with plain Nat arithmetic; the last branch
writes a five-byte VINT whose four payload bytes go through the 32-bit
`(value >> k) & 0xFF` semantics. -/
def writeVint (value : Nat) : List Nat :=
  if value < 0x80 then
    [value ||| 0x80]
  else if value < 0x4000 then
    [(value >>> 8) ||| 0x40, value &&& 0xFF]
  else if value < 0x200000 then
    [(value >>> 16) ||| 0x20, (value >>> 8) &&& 0xFF, value &&& 0xFF]
  else if value < 0x10000000 then
    [(value >>> 24) ||| 0x10, (value >>> 16) &&& 0xFF,
     (value >>> 8) &&& 0xFF, value &&& 0xFF]
  else
    [0x08, jsShrAndFF value 24, jsShrAndFF value 16,
     jsShrAndFF value 8, jsShrAndFF value 0]

/-- MinimalWebMMuxer.writeElementId: one to four bytes by magnitude; every
element id the muxer passes is below 2^31, where the JS bitwise operators
agree with plain Nat arithmetic. -/
def writeElementIdBytes (id : Nat) : List Nat :=
  if id < 0x100 then [id ||| 0x80]
  else if id < 0x10000 then [(id >>> 8) ||| 0x40, id &&& 0xFF]
  else if id < 0x1000000 then
    [(id >>> 16) ||| 0x20, (id >>> 8) &&& 0xFF, id &&& 0xFF]
  else
    [(id >>> 24) ||| 0x10, (id >>> 16) &&& 0xFF, (id >>> 8) &&& 0xFF, id &&& 0xFF]

/-- MinimalWebMMuxer.writeUint(value, byteLength): big-endian bytes
`(value >> (i*8)) & 0xFF` for i = byteLength-1 down to 0; value may be a
negative JS number (the muxer passes negative relative timecodes). -/
def writeUintBytes (value : Int) (byteLength : Nat) : List Nat :=
  (List.range byteLength).map (fun j => jsShrAndFF value ((byteLength - 1 - j) * 8))

/-- MinimalWebMMuxer.writeString: charCodeAt for each position (all strings
the muxer writes are ASCII). -/
def writeStringBytes (s : String) : List Nat := s.data.map Char.toNat

/-- MinimalWebMMuxer.writeFloat64 restricted to the natural-number values the
muxer passes (the 0 placeholder and audio sampling frequencies): the exact
big-endian IEEE-754 encoding, valid for n < 2^53 where doubles are exact. -/
def encodeFloat64Nat (n : Nat) : List Nat :=
  let bits :=
    if n = 0 then 0
    else (1023 + Nat.log2 n) * 2 ^ 52 + (n * 2 ^ 52 / 2 ^ Nat.log2 n - 2 ^ 52)
  (List.range 8).map (fun j => bits / 2 ^ ((7 - j) * 8) % 256)

/-- A muxer track record; video tracks use width/height, audio tracks use
samplingFrequency/channels (the JS objects are duck-typed, modeled here as
one record with zero defaults for the absent fields). -/
structure MuxTrack where
  id : Nat
  type : Nat
  codecId : String
  width : Nat := 0
  height : Nat := 0
  samplingFrequency : Nat := 0
  channels : Nat := 0
  name : String
deriving Repr, DecidableEq

structure ClusterRec where
  timecode : Int
  startPos : Nat
deriving Repr, DecidableEq

/-- Ghost record of one SimpleBlock emission (specification instrumentation
alongside the raw bytes): the write call's arguments together with the
cluster base and the relative timecode computed at the emission site. -/
structure BlockGhost where
  trackId : Nat
  timestampNs : Int
  clusterBase : Int
  delta : Int
  keyframe : Bool
deriving Repr, DecidableEq

structure MuxState where
  buffer : List Nat
  tracks : List MuxTrack
  clusters : List ClusterRec
  currentCluster : Option ClusterRec
  timecodeScale : Nat
  nextTrackId : Nat
  writtenHeader : Bool
  blocks : List BlockGhost
deriving Repr, DecidableEq

/-- MinimalWebMMuxer.constructor. -/
def initMuxer : MuxState :=
  ⟨[], [], [], none, 1000000, 1, false, []⟩

/-- JS `this.buffer.push(...bytes)`. -/
def pushBytes (st : MuxState) (bs : List Nat) : MuxState :=
  { st with buffer := st.buffer ++ bs }

/-- MinimalWebMMuxer.addVideoTrack: unconditionally append a track record
and return the next track id — no validation of dimensions, codec id or
muxer state whatsoever. -/
def addVideoTrack (st : MuxState) (width height : Nat) (codecId : String) :
    Nat × MuxState :=
  let trackId := st.nextTrackId
  let track : MuxTrack :=
    { id := trackId, type := 1, codecId := codecId, width := width,
      height := height, name := "Video Track " ++ toString trackId }
  (trackId, { st with nextTrackId := st.nextTrackId + 1,
                      tracks := st.tracks ++ [track] })

/-- MinimalWebMMuxer.addAudioTrack: same unconditional append. -/
def addAudioTrack (st : MuxState) (samplingFrequency channels : Nat)
    (codecId : String) : Nat × MuxState :=
  let trackId := st.nextTrackId
  let track : MuxTrack :=
    { id := trackId, type := 2, codecId := codecId,
      samplingFrequency := samplingFrequency, channels := channels,
      name := "Audio Track " ++ toString trackId }
  (trackId, { st with nextTrackId := st.nextTrackId + 1,
                      tracks := st.tracks ++ [track] })

/-- MinimalWebMMuxer.writeEBMLHeader.  The declared payload size is 30
although 31 payload bytes follow, reproduced from the source. -/
def writeEBMLHeader (st : MuxState) : MuxState :=
  pushBytes st (writeElementIdBytes 0x1A45DFA3 ++ writeVint 30
    ++ writeElementIdBytes 0x4286 ++ writeVint 1 ++ writeUintBytes 1 1
    ++ writeElementIdBytes 0x42F7 ++ writeVint 1 ++ writeUintBytes 1 1
    ++ writeElementIdBytes 0x42F2 ++ writeVint 1 ++ writeUintBytes 4 1
    ++ writeElementIdBytes 0x42F3 ++ writeVint 1 ++ writeUintBytes 8 1
    ++ writeElementIdBytes 0x4282 ++ writeVint 4 ++ writeStringBytes "webm"
    ++ writeElementIdBytes 0x4287 ++ writeVint 1 ++ writeUintBytes 2 1
    ++ writeElementIdBytes 0x4285 ++ writeVint 1 ++ writeUintBytes 2 1)

/-- MinimalWebMMuxer.writeSegmentInfo: declared size 20 (19 payload bytes
follow, reproduced from the source), TimecodeScale, then the Duration
placeholder float 0. -/
def writeSegmentInfo (st : MuxState) : MuxState :=
  pushBytes st (writeElementIdBytes 0x1549A966 ++ writeVint 20
    ++ writeElementIdBytes 0x2AD7B1 ++ writeVint 4 ++ writeUintBytes st.timecodeScale 4
    ++ writeElementIdBytes 0x4489 ++ writeVint 8 ++ encodeFloat64Nat 0)

/-- MinimalWebMMuxer.calculateTrackSize: the muxer's byte budget for a
TrackEntry.  It counts the two-byte Name id 0x536E as a single byte,
reproduced from the source. -/
def calculateTrackSize (track : MuxTrack) : Nat :=
  1 + 1
  + (1 + 1 + 1)
  + (1 + 1 + 1)
  + (1 + 1 + track.codecId.length)
  + (1 + 1 + track.name.length)
  + (if track.type = 1 then (1 + 1) + (1 + 1 + 2) + (1 + 1 + 2)
     else if track.type = 2 then (1 + 1) + (1 + 1 + 8) + (1 + 1 + 1)
     else 0)

/-- MinimalWebMMuxer.writeTrack: TrackEntry with declared size
calculateTrackSize - 2, then the children, then the Video or Audio child. -/
def writeTrack (st : MuxState) (track : MuxTrack) : MuxState :=
  let st1 := pushBytes st (writeElementIdBytes 0xAE
    ++ writeVint (calculateTrackSize track - 2)
    ++ writeElementIdBytes 0xD7 ++ writeVint 1 ++ writeUintBytes track.id 1
    ++ writeElementIdBytes 0x83 ++ writeVint 1 ++ writeUintBytes track.type 1
    ++ writeElementIdBytes 0x86 ++ writeVint track.codecId.length
    ++ writeStringBytes track.codecId
    ++ writeElementIdBytes 0x536E ++ writeVint track.name.length
    ++ writeStringBytes track.name)
  if track.type = 1 then
    pushBytes st1 (writeElementIdBytes 0xE0 ++ writeVint 8
      ++ writeElementIdBytes 0xB0 ++ writeVint 2 ++ writeUintBytes track.width 2
      ++ writeElementIdBytes 0xBA ++ writeVint 2 ++ writeUintBytes track.height 2)
  else if track.type = 2 then
    pushBytes st1 (writeElementIdBytes 0xE1 ++ writeVint 13
      ++ writeElementIdBytes 0xB5 ++ writeVint 8
      ++ encodeFloat64Nat track.samplingFrequency
      ++ writeElementIdBytes 0x9F ++ writeVint 1 ++ writeUintBytes track.channels 1)
  else st1

/-- MinimalWebMMuxer.writeTracks: the Tracks element with the summed track
budget as its declared size, then each registered track in order. -/
def writeTracks (st : MuxState) : MuxState :=
  let tracksSize := st.tracks.foldl (fun s t => s + calculateTrackSize t) 0
  let st1 := pushBytes st (writeElementIdBytes 0x1654AE6B ++ writeVint tracksSize)
  st1.tracks.foldl writeTrack st1

/-- MinimalWebMMuxer.writeHeader: EBML header, SegmentInfo and Tracks —
no Segment element is ever emitted around them. -/
def writeHeader (st : MuxState) : MuxState :=
  { writeTracks (writeSegmentInfo (writeEBMLHeader st)) with writtenHeader := true }

/-- MinimalWebMMuxer.startNewCluster: record (timecode, startPos), then the
four-byte cluster id, a ONE-byte zero size VINT (0x80), and the Timecode
child with a two-byte value. -/
def startNewCluster (st : MuxState) (timecode : Int) : MuxState :=
  let c : ClusterRec := ⟨timecode, st.buffer.length⟩
  pushBytes { st with currentCluster := some c, clusters := st.clusters ++ [c] }
    (writeElementIdBytes 0x1F43B675 ++ writeVint 0
      ++ writeElementIdBytes 0xE7 ++ writeVint 2 ++ writeUintBytes timecode 2)

/-- JS `buffer[i] = b`. -/
def setByte (l : List Nat) (i : Nat) (b : Nat) : List Nat := l.set i b

/-- MinimalWebMMuxer.finalizeCurrentCluster: overwrite the FOUR bytes after
the cluster id with the big-endian cluster size, although startNewCluster
reserved only one size byte — the patch clobbers the Timecode child. -/
def finalizeCurrentCluster (st : MuxState) : MuxState :=
  match st.currentCluster with
  | none => st
  | some c =>
    let clusterSize : Int := (st.buffer.length : Int) - c.startPos - 6
    let sizePos := c.startPos + 4
    let b0 := setByte st.buffer sizePos (jsShrAndFF clusterSize 24)
    let b1 := setByte b0 (sizePos + 1) (jsShrAndFF clusterSize 16)
    let b2 := setByte b1 (sizePos + 2) (jsShrAndFF clusterSize 8)
    let b3 := setByte b2 (sizePos + 3) (jsShrAndFF clusterSize 0)
    { st with buffer := b3 }

/-- MinimalWebMMuxer.writeVideoFrame: no validation of payload, handle or
timestamp order — lazily write the header, open a new cluster when none is
open or the frame's tick reaches base + 32768, then append a SimpleBlock.
The track-number byte gets its MSB set exactly for NON-keyframes while the
keyframe flag also goes into the flags byte, reproduced from the source.
A BlockGhost records the emission. -/
def writeVideoFrame (st : MuxState) (trackId : Nat) (frameData : List Nat)
    (timestampNs : Int) (isKeyframe : Bool) : MuxState :=
  let st1 := if ¬ st.writtenHeader then writeHeader st else st
  let clusterTimecode : Int := timestampNs.fdiv st1.timecodeScale
  let st2 :=
    match st1.currentCluster with
    | none => startNewCluster (finalizeCurrentCluster st1) clusterTimecode
    | some c =>
      if clusterTimecode ≥ c.timecode + 32768 then
        startNewCluster (finalizeCurrentCluster st1) clusterTimecode
      else st1
  let base := ((st2.currentCluster).getD ⟨0, 0⟩).timecode
  let flags : Nat := if isKeyframe then 0x80 else 0x00
  let trackByte : Nat := trackId ||| (if isKeyframe then 0x00 else 0x80)
  let relativeTimecode : Int := clusterTimecode - base
  let st3 := pushBytes st2 (writeElementIdBytes 0xA3
    ++ writeVint (4 + frameData.length)
    ++ writeUintBytes (trackByte : Int) 1
    ++ writeUintBytes relativeTimecode 2
    ++ writeUintBytes (flags : Int) 1
    ++ frameData)
  { st3 with blocks := st3.blocks ++
      [⟨trackId, timestampNs, base, relativeTimecode, isKeyframe⟩] }

/-- MinimalWebMMuxer.writeAudioFrame: same clustering, the track byte is the
raw id and the flags byte is 0. -/
def writeAudioFrame (st : MuxState) (trackId : Nat) (frameData : List Nat)
    (timestampNs : Int) : MuxState :=
  let st1 := if ¬ st.writtenHeader then writeHeader st else st
  let clusterTimecode : Int := timestampNs.fdiv st1.timecodeScale
  let st2 :=
    match st1.currentCluster with
    | none => startNewCluster (finalizeCurrentCluster st1) clusterTimecode
    | some c =>
      if clusterTimecode ≥ c.timecode + 32768 then
        startNewCluster (finalizeCurrentCluster st1) clusterTimecode
      else st1
  let base := ((st2.currentCluster).getD ⟨0, 0⟩).timecode
  let relativeTimecode : Int := clusterTimecode - base
  let st3 := pushBytes st2 (writeElementIdBytes 0xA3
    ++ writeVint (4 + frameData.length)
    ++ writeUintBytes (trackId : Int) 1
    ++ writeUintBytes relativeTimecode 2
    ++ writeUintBytes 0 1
    ++ frameData)
  { st3 with blocks := st3.blocks ++
      [⟨trackId, timestampNs, base, relativeTimecode, false⟩] }

/-- Truncation toward zero of a rational — the integral part the JS ToInt32
operation starts from. -/
def ratTrunc (q : ℚ) : Int := q.num.tdiv (q.den : Int)

/-- MinimalWebMMuxer.finalize: close the open cluster, then, when at least
one cluster exists, patch eight bytes at the fixed offset 4+30+4+4+4+8 = 54
with `(duration >> k) & 0xFF` for k = 56, 48, ..., 8 and `duration & 0xFF`,
where duration = (lastCluster.timecode + 1000) * (timecodeScale / 1e9).
The JS double arithmetic is modeled by exact rational arithmetic and ToInt32
by truncation of the rational; the two agree whenever the double product is
not within one rounding error of crossing an integer, which holds at every
input evaluated in this development.  Returns new Uint8Array(buffer), which
reduces every pushed value mod 256. -/
def finalize (st : MuxState) : List Nat :=
  let st1 := finalizeCurrentCluster st
  let buf :=
    match st1.clusters.getLast? with
    | none => st1.buffer
    | some lastCluster =>
      let duration : ℚ :=
        ((lastCluster.timecode : ℚ) + 1000) * ((st1.timecodeScale : ℚ) / 1000000000)
      let d : Int := ratTrunc duration
      let durationPos := 4 + 30 + 4 + 4 + 4 + 8
      (List.range 8).foldl
        (fun b j => setByte b (durationPos + j) (jsShrAndFF d ((7 - j) * 8)))
        st1.buffer
  buf.map (· % 256)

/-- The input to one writeVideoFrame call, for whole-run statements. -/
structure FrameIn where
  trackId : Nat
  data : List Nat
  timestampNs : Int
  keyframe : Bool
deriving Repr, DecidableEq

/-- Feed a sequence of video frames to the muxer. -/
def muxFrames (st : MuxState) (fs : List FrameIn) : MuxState :=
  fs.foldl (fun s f => writeVideoFrame s f.trackId f.data f.timestampNs f.keyframe) st




/-- Scenario for C1/S1: one V_VP8 track, one 3-byte keyframe at t = 0 ns. -/
def c1Run : MuxState :=
  let p := addVideoTrack initMuxer 640 480 "V_VP8"
  writeVideoFrame p.2 p.1 [0x30, 0x00, 0x00] 0 true

/-- Scenario for C8: one V_VP8 track, one keyframe at t = 5,000,000,000 ns
(5000 ticks at the default TimecodeScale). -/
def c8Run : MuxState :=
  let p := addVideoTrack initMuxer 640 480 "V_VP8"
  writeVideoFrame p.2 p.1 [0x30, 0x00, 0x00] 5000000000 true

/-- Scenario for C7/S4: two frames on the same track with decreasing
timestamps 100 ns then 50 ns. -/
def c7Run : MuxState :=
  let p := addVideoTrack initMuxer 640 480 "V_VP8"
  writeVideoFrame (writeVideoFrame p.2 p.1 [0xAA] 100 true) p.1 [0xBB] 50 false

/-- Scenario for C9: two tracks, each with one frame (hence per-track
monotone): track 1 at 100,000,000,000 ns (tick 100000), then track 2 at
0 ns (tick 0). -/
def c9Run : MuxState :=
  let p1 := addVideoTrack initMuxer 640 480 "V_VP8"
  let p2 := addVideoTrack p1.2 320 240 "V_VP9"
  writeVideoFrame (writeVideoFrame p2.2 p1.1 [0xAA] 100000000000 true)
    p2.1 [0xBB] 0 true

/-- A minimal EBML header whose DocType payload is "matroska" and that does
not contain the bytes "webm": magic, size 11, DocType element (id 0x4282,
size 8, "matroska"). -/
def matroskaHeaderBuf : List Nat :=
  [0x1A, 0x45, 0xDF, 0xA3, 0x8B, 0x42, 0x82, 0x88,
   0x6D, 0x61, 0x74, 0x72, 0x6F, 0x73, 0x6B, 0x61]

/-- The same DocType="matroska" header followed by the stray bytes "webm"
(inside the scan window) and one padding byte. -/
def matroskaWebmBuf : List Nat :=
  matroskaHeaderBuf ++ [0x77, 0x65, 0x62, 0x6D, 0x00]

/-- An EBML header with DocType "webm" and DocTypeReadVersion = 3 (> 2):
magic, size 11, DocType element ("webm"), DocTypeReadVersion element
(id 0x4285, size 1, value 3). -/
def readVersion3Buf : List Nat :=
  [0x1A, 0x45, 0xDF, 0xA3, 0x8B, 0x42, 0x82, 0x84, 0x77, 0x65, 0x62, 0x6D,
   0x42, 0x85, 0x81, 0x03]

/-- The S5 SimpleBlock: track VINT 0x81, delta 0, flags 0x04 (fixed lacing),
then a 13-byte payload: lacing count byte 0x02 (three frames) and twelve
frame bytes. -/
def s5Block : List Nat :=
  [0x81, 0x00, 0x00, 0x04, 0x02, 1, 2, 3, 4, 5, 6, 7, 8, 9, 10, 11, 12]


set_option maxRecDepth 40000

lemma toInt32_of_small (x : Int) (h0 : 0 ≤ x) (h1 : x < 2 ^ 31) : toInt32 x = x := by
  unfold toInt32
  have : x.emod (2 ^ 32) = x := Int.emod_eq_of_lt h0 (by omega)
  simp only [this]
  omega

lemma jsShl8Or_small (x : Int) (b : Nat) (h0 : 0 ≤ x) (h1 : x * 256 + b < 2 ^ 31) :
    jsShl8Or x b = x * 256 + b := by
  unfold jsShl8Or
  have hb : (0 : Int) ≤ b := Int.ofNat_nonneg b
  rw [toInt32_of_small (x * 256) (by positivity) (by omega)]

lemma vintLength_of_ge128 : ∀ b < 256, 128 ≤ b → vintLength b = 1 := by decide

lemma vintLength_of_ge64 : ∀ b < 128, 64 ≤ b → vintLength b = 2 := by decide

lemma vintLength_of_ge32 : ∀ b < 64, 32 ≤ b → vintLength b = 3 := by decide

lemma vintLength_of_ge16 : ∀ b < 32, 16 ≤ b → vintLength b = 4 := by decide

lemma lor128 : ∀ v < 128, v ||| 128 = v + 128 := by decide

lemma lor64 : ∀ v < 64, v ||| 64 = v + 64 := by decide

lemma lor32 : ∀ v < 32, v ||| 32 = v + 32 := by decide

lemma lor16 : ∀ v < 16, v ||| 16 = v + 16 := by decide

lemma and255 (v : Nat) : v &&& 255 = v % 256 := by
  have := Nat.and_pow_two_sub_one_eq_mod v 8
  norm_num at this
  exact this

lemma readVint_one (b : Nat) (h1 : 128 ≤ b) (h2 : b < 256) :
    readVint [b] 0 = some ⟨((b % 128 : Nat) : Int), 1⟩ := by
  have hlen : vintLength b = 1 := vintLength_of_ge128 b h2 h1
  have hmask : b &&& (vintMask 1 - 1) = b % 128 := by
    have := Nat.and_pow_two_sub_one_eq_mod b 7
    norm_num [vintMask] at this ⊢
    exact this
  simp [readVint, jsIndex, hlen, hmask]

lemma readVint_two (b0 b1 : Nat) (h1 : 64 ≤ b0) (h2 : b0 < 128) (hb1 : b1 < 256) :
    readVint [b0, b1] 0 = some ⟨(((b0 % 64) * 256 + b1 : Nat) : Int), 2⟩ := by
  have hlen : vintLength b0 = 2 := vintLength_of_ge64 b0 h2 h1
  have hmask : b0 &&& (vintMask 2 - 1) = b0 % 64 := by
    have := Nat.and_pow_two_sub_one_eq_mod b0 6
    norm_num [vintMask] at this ⊢
    exact this
  have hacc : jsShl8Or ((b0 : Int) % 64) b1 = (b0 : Int) % 64 * 256 + b1 :=
    jsShl8Or_small _ _ (Int.emod_nonneg _ (by norm_num)) (by omega)
  simp [readVint, jsIndex, hlen, hmask, List.range_succ, hacc]

lemma readVint_three (b0 b1 b2 : Nat) (h1 : 32 ≤ b0) (h2 : b0 < 64)
    (hb1 : b1 < 256) (hb2 : b2 < 256) :
    readVint [b0, b1, b2] 0 =
      some ⟨((((b0 % 32) * 256 + b1) * 256 + b2 : Nat) : Int), 3⟩ := by
  have hlen : vintLength b0 = 3 := vintLength_of_ge32 b0 h2 h1
  have hmask : b0 &&& (vintMask 3 - 1) = b0 % 32 := by
    have := Nat.and_pow_two_sub_one_eq_mod b0 5
    norm_num [vintMask] at this ⊢
    exact this
  have hacc1 : jsShl8Or ((b0 : Int) % 32) b1 = (b0 : Int) % 32 * 256 + b1 :=
    jsShl8Or_small _ _ (Int.emod_nonneg _ (by norm_num)) (by omega)
  have hacc2 : jsShl8Or ((b0 : Int) % 32 * 256 + b1) b2 =
      ((b0 : Int) % 32 * 256 + b1) * 256 + b2 :=
    jsShl8Or_small _ _ (by omega) (by omega)
  simp [readVint, jsIndex, hlen, hmask, List.range_succ, hacc1, hacc2]

lemma readVint_four (b0 b1 b2 b3 : Nat) (h1 : 16 ≤ b0) (h2 : b0 < 32)
    (hb1 : b1 < 256) (hb2 : b2 < 256) (hb3 : b3 < 256) :
    readVint [b0, b1, b2, b3] 0 =
      some ⟨(((((b0 % 16) * 256 + b1) * 256 + b2) * 256 + b3 : Nat) : Int), 4⟩ := by
  have hlen : vintLength b0 = 4 := vintLength_of_ge16 b0 h2 h1
  have hmask : b0 &&& (vintMask 4 - 1) = b0 % 16 := by
    have := Nat.and_pow_two_sub_one_eq_mod b0 4
    norm_num [vintMask] at this ⊢
    exact this
  have hacc1 : jsShl8Or ((b0 : Int) % 16) b1 = (b0 : Int) % 16 * 256 + b1 :=
    jsShl8Or_small _ _ (Int.emod_nonneg _ (by norm_num)) (by omega)
  have hacc2 : jsShl8Or ((b0 : Int) % 16 * 256 + b1) b2 =
      ((b0 : Int) % 16 * 256 + b1) * 256 + b2 :=
    jsShl8Or_small _ _ (by omega) (by omega)
  have hacc3 : jsShl8Or (((b0 : Int) % 16 * 256 + b1) * 256 + b2) b3 =
      (((b0 : Int) % 16 * 256 + b1) * 256 + b2) * 256 + b3 :=
    jsShl8Or_small _ _ (by omega) (by omega)
  simp [readVint, jsIndex, hlen, hmask, List.range_succ, hacc1, hacc2, hacc3]

lemma readVint_five (b1 b2 b3 b4 : Nat) (hb1 : b1 < 128)
    (hb2 : b2 < 256) (hb3 : b3 < 256) (hb4 : b4 < 256) :
    readVint [0x08, b1, b2, b3, b4] 0 =
      some ⟨((((b1 * 256 + b2) * 256 + b3) * 256 + b4 : Nat) : Int), 5⟩ := by
  have hlen : vintLength 0x08 = 5 := by decide
  have hmask : (0x08 : Nat) &&& (vintMask 5 - 1) = 0 := by decide
  have hacc1 : jsShl8Or (0 : Int) b1 = (b1 : Int) :=
    by simpa using jsShl8Or_small 0 b1 le_rfl (by omega)
  have hacc2 : jsShl8Or ((b1 : Int)) b2 = (b1 : Int) * 256 + b2 :=
    jsShl8Or_small _ _ (by omega) (by omega)
  have hacc3 : jsShl8Or ((b1 : Int) * 256 + b2) b3 =
      ((b1 : Int) * 256 + b2) * 256 + b3 :=
    jsShl8Or_small _ _ (by omega) (by omega)
  have hacc4 : jsShl8Or (((b1 : Int) * 256 + b2) * 256 + b3) b4 =
      (((b1 : Int) * 256 + b2) * 256 + b3) * 256 + b4 :=
    jsShl8Or_small _ _ (by omega) (by omega)
  simp [readVint, jsIndex, hlen, hmask, List.range_succ, hacc1, hacc2, hacc3, hacc4]

lemma jsShrAndFF_small (v k : Nat) (hk : k < 32) (hv : v < 2 ^ 31) :
    jsShrAndFF (v : Int) k = v / 2 ^ k % 256 := by
  unfold jsShrAndFF
  rw [toInt32_of_small _ (by positivity) (by exact_mod_cast hv)]
  rw [Int.fdiv_eq_ediv _ (by positivity), Nat.mod_eq_of_lt hk]
  rw [show ((2 : Int) ^ k) = ((2 ^ k : Nat) : Int) by push_cast; ring]
  rw [← Int.ofNat_ediv]
  generalize v / 2 ^ k = w
  show (((w : Int) % 256)).toNat = w % 256
  omega

/-- The VINT round-trip below 2^31 (helper for the amended claim C2). -/
lemma readVint_writeVint (v : Nat) (h : v < 2 ^ 31) :
    (readVint (writeVint v) 0).map VintResult.value = some (v : Int) := by
  by_cases h1 : v < 0x80
  · rw [writeVint, if_pos h1, lor128 v h1,
      readVint_one (v + 128) (by omega) (by omega),
      show (v + 128) % 128 = v by omega]
    rfl
  · by_cases h2 : v < 0x4000
    · rw [writeVint, if_neg h1, if_pos h2]
      rw [Nat.shiftRight_eq_div_pow]
      norm_num
      rw [lor64 (v / 256) (by omega), and255,
        readVint_two (v / 256 + 64) (v % 256) (by omega) (by omega) (by omega),
        show (v / 256 + 64) % 64 * 256 + v % 256 = v by omega]
      exact ⟨_, rfl, rfl⟩
    · by_cases h3 : v < 0x200000
      · rw [writeVint, if_neg h1, if_neg h2, if_pos h3]
        rw [Nat.shiftRight_eq_div_pow, Nat.shiftRight_eq_div_pow]
        norm_num
        rw [lor32 (v / 65536) (by omega), and255, and255,
          readVint_three (v / 65536 + 32) (v / 256 % 256) (v % 256)
            (by omega) (by omega) (by omega) (by omega),
          show ((v / 65536 + 32) % 32 * 256 + v / 256 % 256) * 256 + v % 256 = v
            by omega]
        exact ⟨_, rfl, rfl⟩
      · by_cases h4 : v < 0x10000000
        · rw [writeVint, if_neg h1, if_neg h2, if_neg h3, if_pos h4]
          rw [Nat.shiftRight_eq_div_pow, Nat.shiftRight_eq_div_pow,
            Nat.shiftRight_eq_div_pow]
          norm_num
          rw [lor16 (v / 16777216) (by omega), and255, and255, and255,
            readVint_four (v / 16777216 + 16) (v / 65536 % 256) (v / 256 % 256)
              (v % 256) (by omega) (by omega) (by omega) (by omega) (by omega),
            show (((v / 16777216 + 16) % 16 * 256 + v / 65536 % 256) * 256
              + v / 256 % 256) * 256 + v % 256 = v by omega]
          exact ⟨_, rfl, rfl⟩
        · rw [writeVint, if_neg h1, if_neg h2, if_neg h3, if_neg h4]
          rw [jsShrAndFF_small v 24 (by omega) h, jsShrAndFF_small v 16 (by omega) h,
            jsShrAndFF_small v 8 (by omega) h, jsShrAndFF_small v 0 (by omega) h]
          norm_num
          rw [readVint_five (v / 16777216 % 256) (v / 65536 % 256) (v / 256 % 256)
            (v % 256) (by omega) (by omega) (by omega) (by omega),
            show ((v / 16777216 % 256 * 256 + v / 65536 % 256) * 256
              + v / 256 % 256) * 256 + v % 256 = v by omega]
          exact ⟨_, rfl, rfl⟩

lemma pushBytes_blocks (st : MuxState) (bs : List Nat) :
    (pushBytes st bs).blocks = st.blocks := rfl

lemma pushBytes_currentCluster (st : MuxState) (bs : List Nat) :
    (pushBytes st bs).currentCluster = st.currentCluster := rfl

lemma pushBytes_timecodeScale (st : MuxState) (bs : List Nat) :
    (pushBytes st bs).timecodeScale = st.timecodeScale := rfl

lemma writeTrack_ghost (st : MuxState) (t : MuxTrack) :
    (writeTrack st t).blocks = st.blocks ∧
    (writeTrack st t).currentCluster = st.currentCluster ∧
    (writeTrack st t).timecodeScale = st.timecodeScale := by
  unfold writeTrack
  split_ifs <;> exact ⟨rfl, rfl, rfl⟩

lemma foldl_writeTrack_ghost (l : List MuxTrack) :
    ∀ st : MuxState, (l.foldl writeTrack st).blocks = st.blocks ∧
      (l.foldl writeTrack st).currentCluster = st.currentCluster ∧
      (l.foldl writeTrack st).timecodeScale = st.timecodeScale := by
  induction l with
  | nil => intro st; exact ⟨rfl, rfl, rfl⟩
  | cons t rest ih =>
    intro st
    have h1 := writeTrack_ghost st t
    have h2 := ih (writeTrack st t)
    simp only [List.foldl_cons]
    exact ⟨h2.1.trans h1.1, h2.2.1.trans h1.2.1, h2.2.2.trans h1.2.2⟩

lemma writeTracks_ghost (st : MuxState) :
    (writeTracks st).blocks = st.blocks ∧
    (writeTracks st).currentCluster = st.currentCluster ∧
    (writeTracks st).timecodeScale = st.timecodeScale := by
  simp only [writeTracks]
  exact ⟨(foldl_writeTrack_ghost _ _).1, (foldl_writeTrack_ghost _ _).2.1,
    (foldl_writeTrack_ghost _ _).2.2⟩

lemma writeHeader_ghost (st : MuxState) :
    (writeHeader st).blocks = st.blocks ∧
    (writeHeader st).currentCluster = st.currentCluster ∧
    (writeHeader st).timecodeScale = st.timecodeScale := by
  have h := writeTracks_ghost (writeSegmentInfo (writeEBMLHeader st))
  exact ⟨h.1, h.2.1, h.2.2⟩

lemma finalizeCurrentCluster_blocks (st : MuxState) :
    (finalizeCurrentCluster st).blocks = st.blocks := by
  unfold finalizeCurrentCluster
  rcases h : st.currentCluster with _ | c <;> simp [h]

lemma finalizeCurrentCluster_timecodeScale (st : MuxState) :
    (finalizeCurrentCluster st).timecodeScale = st.timecodeScale := by
  unfold finalizeCurrentCluster
  rcases h : st.currentCluster with _ | c <;> simp [h]

lemma startNewCluster_blocks (st : MuxState) (tc : Int) :
    (startNewCluster st tc).blocks = st.blocks := rfl

lemma startNewCluster_currentCluster (st : MuxState) (tc : Int) :
    (startNewCluster st tc).currentCluster = some ⟨tc, st.buffer.length⟩ := rfl

lemma startNewCluster_timecodeScale (st : MuxState) (tc : Int) :
    (startNewCluster st tc).timecodeScale = st.timecodeScale := rfl

/-- Behaviour of one writeVideoFrame call on the ghost state: exactly one
block is appended (nothing is ever rejected), its delta is tick - base, the
cluster stays open at base, and base is determined by the cluster-boundary
rule of the source. -/
lemma writeVideoFrame_spec (st : MuxState) (t : Nat) (d : List Nat) (ts : Int)
    (k : Bool) :
    ∃ base : Int,
      (writeVideoFrame st t d ts k).blocks =
        st.blocks ++ [⟨t, ts, base, ts.fdiv st.timecodeScale - base, k⟩] ∧
      (∃ sp, (writeVideoFrame st t d ts k).currentCluster = some ⟨base, sp⟩) ∧
      (writeVideoFrame st t d ts k).timecodeScale = st.timecodeScale ∧
      (match st.currentCluster with
       | none => base = ts.fdiv st.timecodeScale
       | some c =>
         (ts.fdiv st.timecodeScale ≥ c.timecode + 32768 ∧
           base = ts.fdiv st.timecodeScale) ∨
         (ts.fdiv st.timecodeScale < c.timecode + 32768 ∧ base = c.timecode)) := by
  simp only [writeVideoFrame]
  set st1 := if ¬ st.writtenHeader then writeHeader st else st with hst1
  have h1 : st1.blocks = st.blocks ∧ st1.currentCluster = st.currentCluster ∧
      st1.timecodeScale = st.timecodeScale := by
    rw [hst1]
    split_ifs with h
    · exact ⟨rfl, rfl, rfl⟩
    · exact writeHeader_ghost st
  rcases hc : st1.currentCluster with _ | c
  · have hcs : st.currentCluster = none := by rw [← h1.2.1, hc]
    refine ⟨ts.fdiv st.timecodeScale, ?_, ?_, ?_, by rw [hcs]⟩
    · simp only [hc, h1.2.2, startNewCluster_currentCluster, Option.getD_some,
        pushBytes_blocks, startNewCluster_blocks, finalizeCurrentCluster_blocks,
        h1.1]
    · simp only [hc, h1.2.2, pushBytes_currentCluster,
        startNewCluster_currentCluster]
      exact ⟨_, rfl⟩
    · simp only [hc, pushBytes_timecodeScale, startNewCluster_timecodeScale,
        finalizeCurrentCluster_timecodeScale, h1.2.2]
  · have hcs : st.currentCluster = some c := by rw [← h1.2.1, hc]
    by_cases hge : ts.fdiv st.timecodeScale ≥ c.timecode + 32768
    · refine ⟨ts.fdiv st.timecodeScale, ?_, ?_, ?_, ?_⟩
      · simp only [hc, h1.2.2, if_pos hge, startNewCluster_currentCluster,
          Option.getD_some, pushBytes_blocks, startNewCluster_blocks,
          finalizeCurrentCluster_blocks, h1.1]
      · simp only [hc, h1.2.2, if_pos hge, pushBytes_currentCluster,
          startNewCluster_currentCluster]
        exact ⟨_, rfl⟩
      · simp only [hc, h1.2.2, if_pos hge, pushBytes_timecodeScale,
          startNewCluster_timecodeScale, finalizeCurrentCluster_timecodeScale]
      · rw [hcs]
        exact Or.inl ⟨hge, rfl⟩
    · refine ⟨c.timecode, ?_, ?_, ?_, ?_⟩
      · simp only [hc, h1.2.2, if_neg hge, Option.getD_some, pushBytes_blocks,
          h1.1]
      · simp only [hc, h1.2.2, if_neg hge, pushBytes_currentCluster]
        exact ⟨c.startPos, rfl⟩
      · simp only [hc, h1.2.2, if_neg hge, pushBytes_timecodeScale]
      · rw [hcs]
        exact Or.inr ⟨by omega, rfl⟩

lemma fdiv_mono_left (a b dv : Int) (h : a ≤ b) (hd : 0 < dv) :
    a.fdiv dv ≤ b.fdiv dv := by
  rw [Int.fdiv_eq_ediv _ (le_of_lt hd), Int.fdiv_eq_ediv _ (le_of_lt hd)]
  exact Int.ediv_le_ediv hd h

/-- Invariant induction for the cluster-delta bound: when the incoming video
frames carry globally non-decreasing timestamps and the open cluster's base
does not exceed the next frame's tick, every emitted delta stays in
[0, 32767]. -/
lemma muxFrames_delta_aux (fs : List FrameIn) :
    ∀ st : MuxState, 0 < st.timecodeScale →
    (∀ g ∈ st.blocks, 0 ≤ g.delta ∧ g.delta ≤ 32767) →
    (∀ c f, st.currentCluster = some c → fs.head? = some f →
      c.timecode ≤ f.timestampNs.fdiv st.timecodeScale) →
    fs.Chain' (fun a b => a.timestampNs ≤ b.timestampNs) →
    ∀ g ∈ (muxFrames st fs).blocks, 0 ≤ g.delta ∧ g.delta ≤ 32767 := by
  induction fs with
  | nil => intro st _ hb _ _; simpa [muxFrames] using hb
  | cons f rest ih =>
    intro st hpos hb hcl hchain
    obtain ⟨base, hblocks, ⟨sp, hcc⟩, hts, hrel⟩ :=
      writeVideoFrame_spec st f.trackId f.data f.timestampNs f.keyframe
    have hbase : base ≤ f.timestampNs.fdiv st.timecodeScale ∧
        f.timestampNs.fdiv st.timecodeScale - base ≤ 32767 := by
      rcases hcs : st.currentCluster with _ | c
      · rw [hcs] at hrel
        simp only at hrel
        omega
      · rw [hcs] at hrel
        simp only at hrel
        rcases hrel with ⟨hge, hbe⟩ | ⟨hlt, hbe⟩
        · omega
        · have := hcl c f hcs rfl
          omega
    have hstep : muxFrames st (f :: rest) =
        muxFrames (writeVideoFrame st f.trackId f.data f.timestampNs f.keyframe)
          rest := by
      simp [muxFrames]
    rw [hstep]
    refine ih (writeVideoFrame st f.trackId f.data f.timestampNs f.keyframe)
      (by rw [hts]; exact hpos) ?_ ?_ ?_
    · rw [hblocks]
      intro g hg
      rcases List.mem_append.mp hg with h | h
      · exact hb g h
      · rcases List.mem_singleton.mp h with rfl
        refine ⟨by simp; omega, by simp; omega⟩
    · intro c2 f2 hc2 hf2
      rw [hcc] at hc2
      rcases Option.some_inj.mp hc2 with rfl
      rw [hts]
      have hle : f.timestampNs ≤ f2.timestampNs := by
        cases rest with
        | nil => simp at hf2
        | cons f2x restx =>
          rcases Option.some_inj.mp hf2 with rfl
          exact (List.chain'_cons.mp hchain).1
      have := fdiv_mono_left f.timestampNs f2.timestampNs st.timecodeScale hle
        (by exact_mod_cast hpos)
      simp only
      omega
    · exact hchain.tail

/-- C1: the spec claims a mux-parse round trip of (track, timestamp) pairs;
on the code it fails at the simplest input.  One V_VP8 track with one
keyframe at t = 0 is muxed (the ghost block list shows the accepted input
pair (1, 0)), yet parsing the finalized bytes yields the untouched initial
metadata — zero frames and zero tracks — because the muxer never emits a
Segment element and its cluster-size patch corrupts the cluster header, so
the parser finds no Segment and extracts nothing. -/
theorem c1_mux_parse_roundtrip :
    c1Run.blocks.map (fun b => (b.trackId, b.timestampNs)) = [(1, 0)] ∧
    parse (finalize c1Run) = .ok initMetadata := by
  exact ⟨rfl, by rfl⟩

/-- C2 counterexample: at value 2^31 the muxer's writeVint emits a five-byte
VINT whose payload wraps in the parser's 32-bit accumulation, so readVint
returns -2^31 instead of 2^31: the claimed round trip for every unsigned
value is false. -/
theorem c2_vint_roundtrip_cex :
    readVint (writeVint 2147483648) 0 = some ⟨-2147483648, 5⟩ ∧
    (-2147483648 : Int) ≠ 2147483648 := by
  exact ⟨by rfl, by decide⟩

/-- C2 amended: the VINT round trip read(write(value)) = value holds exactly
for values below 2^31 (the JS 32-bit accumulation is faithful there). -/
theorem c2_vint_roundtrip (v : Nat) (h : v < 2 ^ 31) :
    (readVint (writeVint v) 0).map VintResult.value = some (v : Int) :=
  readVint_writeVint v h

/-- C2 witness at value 300. -/
theorem c2_vint_roundtrip_witness :
    300 < 2 ^ 31 ∧
    (readVint (writeVint 300) 0).map VintResult.value = some (300 : Int) :=
  ⟨by norm_num, c2_vint_roundtrip 300 (by norm_num)⟩

/-- C3 counterexample: the parser accepts buffers the claim says it must
reject.  matroskaWebmBuf has an EBML Header whose DocType is "matroska"
(the stray bytes "webm" merely appear after the header, inside the 100-byte
scan window), and readVersion3Buf has DocTypeReadVersion 3 > 2; parse
succeeds on both instead of failing with InvalidHeader. -/
theorem c3_invalid_header_cex :
    parse matroskaWebmBuf = .ok initMetadata ∧
    parse readVersion3Buf = .ok initMetadata := by
  exact ⟨by rfl, by rfl⟩

/-- C3 amended: the parser reports InvalidHeader exactly when the byte-level
validateEBMLHeader check fails — magic bytes at offset 0 plus the ASCII
bytes "webm" somewhere in the first min(length-4, 100) offsets; DocType and
DocTypeReadVersion are never decoded.  In particular [0,0,0,0] is rejected,
and a DocType="matroska" header is rejected when no "webm" bytes occur in
the scan window. -/
theorem c3_invalid_header_policy :
    (∀ buf : List Nat,
      parse buf = .error .invalidHeader ↔ validateEBMLHeader buf = false) ∧
    parse [0x00, 0x00, 0x00, 0x00] = .error .invalidHeader ∧
    parse matroskaHeaderBuf = .error .invalidHeader := by
  refine ⟨fun buf => ?_, by rfl, by rfl⟩
  unfold parse
  by_cases h : validateEBMLHeader buf <;> simp [h]

/-- C4 counterexample: a SimpleBlock with cluster timecode 0 and relative
delta -1 yields a frame with timestamp -1000000 ns — the result is not
clamped at zero as the claim states. -/
theorem c4_no_clamp_cex :
    (parseSimpleBlock initMetadata [0x81, 0xFF, 0xFF, 0x80, 0xAA] 0).frames.map
      PFrame.timestampNs = [-1000000] ∧
    (-1000000 : Int) < 0 := by
  exact ⟨by rfl, by decide⟩

/-- C4 amended: every frame yielded from a SimpleBlock or a Block carries
absolute timestamp (cluster_timecode + signed 16-bit delta) * timecode_scale
with NO clamping at zero: negative sums produce negative timestamps. -/
theorem c4_timestamp_formula :
    (∀ (meta : Metadata) (blockData : List Nat) (ct : Int),
      4 ≤ blockData.length →
      (parseSimpleBlock meta blockData ct).frames.map PFrame.timestampNs =
        meta.frames.map PFrame.timestampNs ++
          [(ct + readInt16 blockData 1) * meta.timecodeScale]) ∧
    (∀ (meta : Metadata) (blockData : List Nat) (ct : Int) (r : VintResult),
      3 ≤ blockData.length → readVintFromBuffer blockData 0 = some r →
      (parseBlock meta blockData ct).frames.map PFrame.timestampNs =
        meta.frames.map PFrame.timestampNs ++
          [(ct + readInt16 blockData r.length) * meta.timecodeScale]) := by
  constructor
  · intro meta blockData ct h
    unfold parseSimpleBlock
    rw [if_neg (by omega)]
    simp
  · intro meta blockData ct r h hr
    unfold parseBlock
    rw [if_neg (by omega), hr]
    simp

/-- C4 witness: a SimpleBlock with delta +1 over cluster timecode 5. -/
theorem c4_timestamp_formula_witness :
    4 ≤ ([0x81, 0x00, 0x01, 0x80, 0xAA] : List Nat).length ∧
    (parseSimpleBlock initMetadata [0x81, 0x00, 0x01, 0x80, 0xAA] 5).frames.map
      PFrame.timestampNs =
      [] ++ [(5 + readInt16 [0x81, 0x00, 0x01, 0x80, 0xAA] 1) * 1000000] :=
  ⟨by norm_num,
    c4_timestamp_formula.1 initMetadata [0x81, 0x00, 0x01, 0x80, 0xAA] 5
      (by norm_num)⟩

/-- C5 counterexample: the S5 fixed-lacing SimpleBlock (three 4-byte frames
over a 13-byte payload) yields ONE frame of 13 bytes, not three frames, and
no InvalidLacing error exists anywhere in the parser. -/
theorem c5_fixed_lacing_cex :
    (parseSimpleBlock initMetadata s5Block 0).frames.length = 1 ∧
    (1 : Nat) ≠ 3 ∧
    (parseSimpleBlock initMetadata s5Block 0).frames.map PFrame.data =
      [[0x02, 1, 2, 3, 4, 5, 6, 7, 8, 9, 10, 11, 12]] := by
  exact ⟨by rfl, by decide, by rfl⟩

/-- C5 amended: the parser ignores the lacing bits entirely — every
SimpleBlock of length at least 4 yields exactly one frame whose payload is
the whole remainder after the 4 header bytes, whatever the flags say. -/
theorem c5_lacing_ignored (meta : Metadata) (blockData : List Nat) (ct : Int)
    (h : 4 ≤ blockData.length) :
    (parseSimpleBlock meta blockData ct).frames.length =
      meta.frames.length + 1 ∧
    ((parseSimpleBlock meta blockData ct).frames.getLast?).map PFrame.data =
      some (blockData.drop 4) := by
  unfold parseSimpleBlock
  rw [if_neg (by omega)]
  constructor
  · simp
  · simp

/-- C5 witness at the S5 block. -/
theorem c5_lacing_ignored_witness :
    4 ≤ s5Block.length ∧
    ((parseSimpleBlock initMetadata s5Block 0).frames.length = 0 + 1 ∧
      ((parseSimpleBlock initMetadata s5Block 0).frames.getLast?).map
        PFrame.data = some (s5Block.drop 4)) :=
  ⟨by norm_num [s5Block], c5_lacing_ignored initMetadata s5Block 0
    (by norm_num [s5Block])⟩

/-- C6 counterexample: addVideoTrack(0, 480, "V_VP8") does not fail with
InvalidArgument — it returns handle 1 and appends a zero-width track. -/
theorem c6_zero_width_accepted_cex :
    (addVideoTrack initMuxer 0 480 "V_VP8").1 = 1 ∧
    (addVideoTrack initMuxer 0 480 "V_VP8").2.tracks.map MuxTrack.width =
      [0] := by
  exact ⟨rfl, rfl⟩

/-- C6 amended: addVideoTrack performs no validation at all: on every muxer
state and every argument triple — zero dimensions, arbitrary codec ids,
after any number of frame writes — it appends a track record and returns the
next handle. -/
theorem c6_add_video_track_unchecked (st : MuxState) (width height : Nat)
    (codecId : String) :
    addVideoTrack st width height codecId =
      (st.nextTrackId,
        { st with nextTrackId := st.nextTrackId + 1,
                  tracks := st.tracks ++
                    [⟨st.nextTrackId, 1, codecId, width, height, 0, 0,
                      "Video Track " ++ toString st.nextTrackId⟩] }) := rfl

/-- C7 counterexample: writing t = 100 ns then t = 50 ns on the same track
raises no OutOfOrderFrame — both frames are accepted and emitted. -/
theorem c7_out_of_order_accepted_cex :
    c7Run.blocks.map (fun b => (b.trackId, b.timestampNs)) =
      [(1, 100), (1, 50)] ∧
    (50 : Int) < 100 := by
  exact ⟨rfl, by decide⟩

/-- C7 amended: writeVideoFrame never rejects anything — empty payloads,
unknown handles and out-of-order timestamps are all accepted, and exactly
one SimpleBlock is emitted per call. -/
theorem c7_write_frame_unchecked (st : MuxState) (trackId : Nat)
    (frameData : List Nat) (timestampNs : Int) (isKeyframe : Bool) :
    ∃ g : BlockGhost,
      (writeVideoFrame st trackId frameData timestampNs isKeyframe).blocks =
        st.blocks ++ [g] ∧
      g.trackId = trackId ∧ g.timestampNs = timestampNs := by
  obtain ⟨base, hblocks, _, _, _⟩ :=
    writeVideoFrame_spec st trackId frameData timestampNs isKeyframe
  exact ⟨_, hblocks, rfl, rfl⟩

/-- Any IEEE-754 double whose first two big-endian bytes are zero is a
nonnegative denormal below 1 (zero sign and exponent bits). -/
lemma decodeIEEE_two_zero_bytes (rest : List Nat) (hlen : rest.length = 6) :
    ∃ q : ℚ, decodeIEEE 11 52 (0 :: 0 :: rest) = some q ∧ 0 ≤ q ∧ q < 1 := by
  have hbound : ∀ (l : List Nat) (a : Nat),
      l.foldl (fun x b => x * 256 + b % 256) a < (a + 1) * 256 ^ l.length := by
    intro l
    induction l with
    | nil => intro a; simp
    | cons b r ih =>
      intro a
      simp only [List.foldl_cons, List.length_cons]
      calc r.foldl (fun x b => x * 256 + b % 256) (a * 256 + b % 256)
          < (a * 256 + b % 256 + 1) * 256 ^ r.length := ih _
        _ ≤ (a + 1) * 256 ^ (r.length + 1) := by
            have hle : a * 256 + b % 256 + 1 ≤ (a + 1) * 256 := by omega
            calc (a * 256 + b % 256 + 1) * 256 ^ r.length
                ≤ ((a + 1) * 256) * 256 ^ r.length := Nat.mul_le_mul_right _ hle
              _ = (a + 1) * 256 ^ (r.length + 1) := by ring
  have hu : (0 :: 0 :: rest).foldl (fun x b => x * 256 + b % 256) 0 < 2 ^ 48 := by
    have h := hbound rest 0
    rw [hlen] at h
    simpa using h
  set u := (0 :: 0 :: rest).foldl (fun x b => x * 256 + b % 256) 0 with hu_def
  have hu48 : u < 281474976710656 := by
    have h := hu
    norm_num at h
    exact h
  have hsign : ¬ (u / 2 ^ (11 + 52) % 2 = 1) := by
    norm_num
    omega
  have hexp : u / 2 ^ 52 % 2 ^ 11 = 0 := by
    norm_num
    omega
  have hmant : u % 2 ^ 52 = u := Nat.mod_eq_of_lt (lt_trans hu (by norm_num))
  refine ⟨(u : ℚ) * ((1 : ℚ) / 2 ^ 1074), ?_, ?_, ?_⟩
  · simp only [decodeIEEE, ← hu_def, if_neg hsign, hexp, hmant]
    norm_num
  · positivity
  · rw [mul_one_div, div_lt_one (by positivity)]
    calc (u : ℚ) < 2 ^ 48 := by exact_mod_cast hu
      _ ≤ 2 ^ 1074 := by norm_num

/-- C8: the Duration patch of finalize is broken.  For a single keyframe at
t = 5,000,000,000 ns (largest frame timestamp 5000 TimecodeScale units) the
claim demands a stored Duration within 0.5 unit of 5000.  The Duration value
field of the finalized buffer is the eight bytes after the id/size bytes
0x44 0x89 0x88 at offsets 49..51 (per the writeSegmentInfo layout), but the
patch writes ToInt32-shifted bytes of a seconds-valued float at the fixed
offset 54, two bytes past the field start 52 and spilling two bytes into the
Tracks element; the field keeps its zero sign/exponent bytes at 52..53, so
the stored Duration decodes to a denormal below 1 — far outside
[4999.5, 5000.5]. -/
theorem c8_duration_bug :
    c8Run.blocks.map BlockGhost.timestampNs = [5000000000] ∧
    ((finalize c8Run).drop 49).take 3 = [0x44, 0x89, 0x88] ∧
    ∃ q : ℚ, readFloat (((finalize c8Run).drop 52).take 8) = some q ∧
      0 ≤ q ∧ q < 1 ∧ ¬ ((4999.5 : ℚ) ≤ q ∧ q ≤ 5000.5) := by
  have hlen : (finalize c8Run).length = 124 := by rfl
  have hsplit : ((finalize c8Run).drop 52).take 8 =
      0 :: 0 :: (((finalize c8Run).drop 54).take 6) := by
    have h2 : ((finalize c8Run).drop 52).take 2 = [0, 0] := by rfl
    have h8 : ((finalize c8Run).drop 52).take 8 =
        ((finalize c8Run).drop 52).take 2 ++
          (((finalize c8Run).drop 52).drop 2).take 6 := by
      rw [show (8 : Nat) = 2 + 6 from rfl, List.take_add]
    rw [h8, h2, List.drop_drop]
    norm_num
  have hrestlen : (((finalize c8Run).drop 54).take 6).length = 6 := by
    rw [List.length_take, List.length_drop, hlen]
    norm_num
  obtain ⟨q, hq, hq0, hq1⟩ :=
    decodeIEEE_two_zero_bytes (((finalize c8Run).drop 54).take 6) hrestlen
  refine ⟨rfl, by rfl, q, ?_, hq0, hq1, ?_⟩
  · rw [hsplit]
    unfold readFloat
    rw [if_neg (by simp [hrestlen]), if_pos (by simp [hrestlen])]
    exact hq
  · intro ⟨ha, _⟩
    have : (4999.5 : ℚ) < 1 := lt_of_le_of_lt ha hq1
    norm_num at this

/-- C9 counterexample: with per-track monotone input (two tracks, one frame
each: track 1 at tick 100000, then track 2 at tick 0) the muxer emits a
SimpleBlock whose relative delta is -100000, outside [-32768, 32767]. -/
theorem c9_delta_out_of_range_cex :
    c9Run.blocks.map BlockGhost.delta = [0, -100000] ∧
    ¬ (-32768 ≤ (-100000 : Int)) ∧
    c9Run.blocks.map (fun b => (b.trackId, b.timestampNs)) =
      [(1, 100000000000), (2, 0)] := by
  exact ⟨rfl, by decide, rfl⟩

/-- C9 amended: the delta bound holds under GLOBAL (cross-track) monotone
timestamps: every emitted SimpleBlock delta then lies in [0, 32767], hence
in the claimed [-32768, 32767]. -/
theorem c9_cluster_delta_bound (fs : List FrameIn)
    (hmono : fs.Chain' (fun a b => a.timestampNs ≤ b.timestampNs)) :
    ∀ g ∈ (muxFrames initMuxer fs).blocks,
      -32768 ≤ g.delta ∧ g.delta ≤ 32767 := by
  intro g hg
  have h := muxFrames_delta_aux fs initMuxer (by norm_num [initMuxer])
    (by intro g hg; simp [initMuxer] at hg)
    (by intro c f hc; simp [initMuxer] at hc) hmono g hg
  omega

/-- C9 witness: two frames at ticks 0 and 40000 (cluster boundary crossing). -/
theorem c9_cluster_delta_bound_witness :
    ([⟨1, [0xAA], 0, true⟩, ⟨1, [0xBB], 40000000000, true⟩] :
        List FrameIn).Chain' (fun a b => a.timestampNs ≤ b.timestampNs) ∧
    ∀ g ∈ (muxFrames initMuxer
        [⟨1, [0xAA], 0, true⟩, ⟨1, [0xBB], 40000000000, true⟩]).blocks,
      -32768 ≤ g.delta ∧ g.delta ≤ 32767 := by
  have hc : ([⟨1, [0xAA], 0, true⟩, ⟨1, [0xBB], 40000000000, true⟩] :
      List FrameIn).Chain' (fun a b => a.timestampNs ≤ b.timestampNs) := by
    simp [List.chain'_cons]
  exact ⟨hc, c9_cluster_delta_bound _ hc⟩

/-- C10: the parser constructor rejects exactly the buffers strictly larger
than 64 MiB = 67,108,864 bytes, before looking at any byte (the result
depends only on the length), and WebMFile.fromBuffer propagates the
failure, leaving no session. -/
theorem c10_size_limit :
    (∀ buf : List Nat,
      mkMinimalWebMParser buf = .error .fileSizeExceeded ↔
        MAX_FILE_SIZE < buf.length) ∧
    (∀ buf : List Nat, MAX_FILE_SIZE < buf.length →
      fromBuffer buf = .error .fileSizeExceeded) := by
  constructor
  · intro buf
    unfold mkMinimalWebMParser
    by_cases h : buf.length > MAX_FILE_SIZE <;> simp [h]
  · intro buf h
    unfold fromBuffer mkMinimalWebMParser
    simp [h]

/-- C10 witness: a 67,108,865-byte buffer is rejected. -/
theorem c10_size_limit_witness :
    MAX_FILE_SIZE < (List.replicate 67108865 (0 : Nat)).length ∧
    fromBuffer (List.replicate 67108865 (0 : Nat)) =
      .error .fileSizeExceeded := by
  have hlen : (List.replicate 67108865 (0 : Nat)).length = 67108865 :=
    List.length_replicate 67108865 0
  constructor
  · rw [hlen]; norm_num [MAX_FILE_SIZE]
  · exact c10_size_limit.2 _ (by rw [hlen]; norm_num [MAX_FILE_SIZE])

end WebM
